import Mathlib

/-!
Verification of the agentuity examples repository (mastra ports).

The development shallowly embeds the TypeScript sources:
pure computations become Lean functions, JavaScript string/array
semantics are modelled explicitly (regex split, truthiness of strings,
negative slice), external collaborators (the chat-completion client,
fetch, JSON.parse) are passed in as function parameters returning
Except values (an error value models a thrown exception), and the
network routing loop becomes a structurally recursive function over
the finite list of model responses consumed by one invocation.
-/

namespace Examples

/-! ## JavaScript string semantics helpers -/

/-- Characters matched by the JavaScript regex class backslash-s
(and stripped by String.prototype.trim): ASCII whitespace, NBSP,
the Unicode space separators, line/paragraph separators and BOM. -/
def jsWs (c : Char) : Bool :=
  c = ' ' || c = '\t' || c = '\n' || c = '\r' || c = '\u000b' || c = '\u000c' ||
  c = '\u00a0' || c = '\u1680' || ('\u2000' ≤ c && c ≤ '\u200a') ||
  c = '\u2028' || c = '\u2029' || c = '\u202f' || c = '\u205f' ||
  c = '\u3000' || c = '\ufeff'

/-- JavaScript `v || d` for an optional string `v`: `null`/`undefined`
and the empty string are falsy, so they yield the default. -/
def jsOrString (v : Option String) (d : String) : String :=
  match v with
  | none => d
  | some s => if s = "" then d else s

/-- JavaScript `String.prototype.trim`: strips `jsWs` characters from
both ends. -/
def jsTrim (s : String) : String :=
  ⟨((s.data.dropWhile jsWs).reverse.dropWhile jsWs).reverse⟩

/-- Worker for `jsFields`. `prev` records whether the previous character
belonged to a whitespace run (so the run is extended rather than
starting a new split), `acc` is the current fragment reversed. -/
def jsFieldsGo : Bool → List Char → List Char → List (List Char)
  | _, acc, [] => [acc.reverse]
  | prev, acc, c :: cs =>
    if jsWs c then
      if prev then jsFieldsGo true acc cs
      else acc.reverse :: jsFieldsGo true [] cs
    else jsFieldsGo false (c :: acc) cs

/-- JavaScript `s.split(regex of one or more whitespace)`: the string is
cut at every maximal whitespace run; fragments before a leading run and
after a trailing run are kept even when empty, so the empty string
yields one (empty) fragment. -/
def jsFields (cs : List Char) : List (List Char) :=
  jsFieldsGo false [] cs

/-- Worker for `wsRuns`: counts maximal `jsWs` runs, `prev` true while
inside a run. -/
def wsRunsGo : Bool → List Char → Nat
  | _, [] => 0
  | prev, c :: cs =>
    if jsWs c then (if prev then 0 else 1) + wsRunsGo true cs
    else wsRunsGo false cs

/-- Number of maximal whitespace runs in a character list. -/
def wsRuns (cs : List Char) : Nat :=
  wsRunsGo false cs

theorem jsFieldsGo_length (cs : List Char) :
    ∀ (prev : Bool) (acc : List Char),
      (jsFieldsGo prev acc cs).length = 1 + wsRunsGo prev cs := by
  induction cs with
  | nil => intro prev acc; simp [jsFieldsGo, wsRunsGo]
  | cons c cs ih =>
    intro prev acc
    by_cases hc : jsWs c
    · cases prev with
      | false => simp [jsFieldsGo, wsRunsGo, hc, ih]; omega
      | true => simp [jsFieldsGo, wsRunsGo, hc, ih]
    · simp [jsFieldsGo, wsRunsGo, hc, ih]

/-- The number of fragments produced by the whitespace split is one more
than the number of maximal whitespace runs. -/
theorem jsFields_length (cs : List Char) :
    (jsFields cs).length = 1 + wsRuns cs :=
  jsFieldsGo_length cs false []

/-! ## Writing agent handler (network-agent example)

Source: the writing agent computes
`content = completion.choices[0]?.message?.content ?? ''` and
`wordCount = content.split(regex of one or more whitespace).length`.
The model response content is passed in as an `Option String`
(`none` models a null/absent content). -/

structure WritingHandlerOut where
  topic : String
  content : String
  wordCount : Nat
deriving DecidableEq, Repr

/-- Count of fragments of the JavaScript whitespace split of a string
(the writing agent word count). -/
def wordCountOf (content : String) : Nat :=
  (jsFields content.data).length

/-- Output-relevant computation of the writing agent handler: the model
call is abstracted as its returned content (`none` for null). -/
def writingHandler (modelContent : Option String) (topic : String) :
    WritingHandlerOut :=
  let content := modelContent.getD ""
  { topic := topic, content := content, wordCount := wordCountOf content }

/-! ## Network agent: tools, workflow and tool dispatch

Source files: the network agent directory (tools, workflows and the
routing handler). External effects are injected: `fetchText` is the
composition of `fetch` and `response.text()` keyed by URL, `encode` is
`encodeURIComponent`, `research`/`writing` are the sub-agent `run`
calls. An `Except.error` value models a thrown/rejected promise. -/

/-- Result record of the research sub-agent run (fields used by the
network agent). -/
structure ResearchRes where
  topic : String
  insights : List String
deriving DecidableEq, Repr

/-- Input record passed to the writing sub-agent run, with the style
already resolved to a concrete string at the call site. -/
structure WritingArgs where
  topic : String
  insights : List String
  style : String
deriving DecidableEq, Repr

/-- Result record of the writing sub-agent run (fields used by the
network agent). -/
structure WritingRes where
  content : String
  wordCount : Nat
deriving DecidableEq, Repr

/-- External collaborators of the network agent tool executor. -/
structure Deps where
  fetchText : String → Except String String
  encode : String → String
  research : String → Except String ResearchRes
  writing : WritingArgs → Except String WritingRes

/-- Raw weather result of the network agent weather tool. -/
structure WeatherRes where
  location : String
  weather : String
deriving DecidableEq, Repr

/-- URL built by the network agent weather tool. -/
def wttrUrl (encode : String → String) (location : String) : String :=
  "https://wttr.in/" ++ encode location ++ "?format=%C+%t+%h+%w"

/-- Network agent `getWeather` (tools module): fetches the wttr.in URL
and trims the body. There is no try/catch, so a fetch failure
propagates as an error. -/
def networkGetWeather (fetchText : String → Except String String)
    (encode : String → String) (location : String) :
    Except String WeatherRes := do
  let body ← fetchText (wttrUrl encode location)
  pure { location := location, weather := jsTrim body }

/-- Output record of the city workflow. -/
structure CityOut where
  city : String
  insights : List String
  reportContent : String
  reportWordCount : Nat
deriving DecidableEq, Repr

/-- Fixed topic descriptor appended to the city name by the city
workflow. -/
def citySuffix : String := " - history, culture, landmarks, and interesting facts"

/-- City workflow: research the city, then write a report from exactly
the returned insights with style `report`. -/
def cityWorkflow (research : String → Except String ResearchRes)
    (writing : WritingArgs → Except String WritingRes) (city : String) :
    Except String CityOut := do
  let researchResult ← research (city ++ citySuffix)
  let writingResult ← writing
    { topic := city, insights := researchResult.insights, style := "report" }
  pure { city := city, insights := researchResult.insights,
         reportContent := writingResult.content,
         reportWordCount := writingResult.wordCount }

/-- Decoded tool-call arguments. Each tool reads the field it needs;
absent fields are modelled like the JavaScript `undefined` the source
would pass through (string fields coerce to the text `undefined` in
templates and URLs, the insights list to an empty list). -/
structure ToolArgs where
  location : Option String := none
  topic : Option String := none
  insights : Option (List String) := none
  style : Option String := none
  city : Option String := none
deriving DecidableEq, Repr

/-- Network agent `executeTool`: dispatches a tool call by name; the
default branch returns the literal unknown-tool string. Event emission
and logging are side channels not modelled. -/
def executeTool (deps : Deps) (toolName : String) (args : ToolArgs) :
    Except String String :=
  if toolName = "get_weather" then do
    let weather ← networkGetWeather deps.fetchText deps.encode
      (args.location.getD "undefined")
    pure ("Weather in " ++ weather.location ++ ": " ++ weather.weather)
  else if toolName = "research_topic" then do
    let researchResult ← deps.research (args.topic.getD "undefined")
    pure ("Research on \"" ++ researchResult.topic ++ "\":\n" ++
      String.intercalate "\n" (researchResult.insights.map (fun i => "• " ++ i)))
  else if toolName = "write_content" then do
    let writeResult ← deps.writing
      { topic := args.topic.getD "undefined",
        insights := args.insights.getD [],
        style := jsOrString args.style "blog" }
    pure writeResult.content
  else if toolName = "city_research" then do
    let cityResult ← cityWorkflow deps.research deps.writing
      (args.city.getD "undefined")
    pure cityResult.reportContent
  else
    pure ("Unknown tool: " ++ toolName)

/-! ## Network agent: routing loop

The handler is embedded as a structurally recursive function over the
finite list of assistant messages the chat-completion client returns on
successive calls (turn i consumes list element i; an exhausted list
models `completion.choices[0]` being undefined). The tool executor and
the JSON decoding of tool-call argument strings are injected; an error
from either aborts the invocation, as an uncaught exception does. -/

/-- One tool-call request as returned by the model: `type` distinguishes
function calls from other call kinds, `arguments` is the raw JSON
string. -/
structure ToolCall where
  id : String
  type : String
  name : String
  arguments : String
deriving DecidableEq, Repr

/-- One assistant message returned by the chat-completion client. -/
structure AssistantMsg where
  content : Option String
  tool_calls : List ToolCall
deriving DecidableEq, Repr

/-- A conversation-list message (role plus the fields the loop uses). -/
structure Msg where
  role : String
  content : Option String
  tool_call_id : Option String := none
  tool_calls : List ToolCall := []
deriving DecidableEq, Repr

/-- A persisted conversation-history entry. -/
structure HistEntry where
  role : String
  content : String
deriving DecidableEq, Repr

/-- The tool-role message pushed for one executed tool call. -/
def mkToolMsg (id result : String) : Msg :=
  { role := "tool", content := some result, tool_call_id := some id }

/-- The assistant message pushed back onto the conversation before the
tool results. -/
def assistantEcho (am : AssistantMsg) : Msg :=
  { role := "assistant", content := am.content, tool_calls := am.tool_calls }

/-- The function-type tool calls of an assistant turn. -/
def fnCalls (am : AssistantMsg) : List ToolCall :=
  am.tool_calls.filter (fun c => c.type == "function")

/-- The per-batch for loop of the routing handler: walks the tool calls
in order, skips non-function calls, decodes each argument string and
executes the tool, collecting the tool-role result messages and the
executed tool names. An error from decoding or execution aborts. -/
def processBatch (exec : String → ToolArgs → Except String String)
    (argParse : String → Except String ToolArgs) :
    List ToolCall → Except String (List Msg × List String)
  | [] => .ok ([], [])
  | c :: cs =>
    if c.type ≠ "function" then processBatch exec argParse cs
    else do
      let args ← argParse c.arguments
      let result ← exec c.name args
      let (ms, ns) ← processBatch exec argParse cs
      pure (mkToolMsg c.id result :: ms, c.name :: ns)

/-- Accumulated result of the routing loop: the message list passed to
each model call, the final message list, the response text and the
executed tool names. -/
structure RunAcc where
  calls : List (List Msg)
  messages : List Msg
  response : String
  executed : List String
deriving DecidableEq, Repr

/-- The while loop of the routing handler. `am` is the assistant message
of the current turn (its content already folded into `response`), `rest`
the responses the client will return on subsequent calls. -/
def runLoop (exec : String → ToolArgs → Except String String)
    (argParse : String → Except String ToolArgs) :
    AssistantMsg → List AssistantMsg → List Msg → String → List String →
    List (List Msg) → Except String RunAcc
  | am, rest, msgs, response, executed, calls =>
    if am.tool_calls.isEmpty then
      .ok { calls := calls, messages := msgs, response := response,
            executed := executed }
    else do
      let (toolResults, names) ← processBatch exec argParse am.tool_calls
      let msgs2 := msgs ++ [assistantEcho am] ++ toolResults
      let executed2 := executed ++ names
      match rest with
      | [] =>
        .ok { calls := calls ++ [msgs2], messages := msgs2,
              response := response, executed := executed2 }
      | r :: rs =>
        runLoop exec argParse r rs msgs2 (jsOrString r.content response)
          executed2 (calls ++ [msgs2])

/-- The fixed system prompt of the network agent. -/
def networkSystemPrompt : String :=
  "You are a network of writers and researchers.\nThe user will ask you to research topics, get weather, or learn about cities.\nAlways respond with complete, helpful information.\nWrite in full paragraphs, like a blog post when appropriate.\nDo not answer with incomplete or uncertain information.\n\nYou have access to the following tools:\n1. get_weather - Get current weather for any location\n2. research_topic - Gather research insights about any topic\n3. write_content - Turn research insights into well-written content\n4. city_research - Get comprehensive information about a city (research + written report)\n\nFor complex tasks:\n- If the user wants a written report, first use research_topic, then use write_content\n- If the user asks about a specific city, consider using city_research for a complete report\n- For simple weather questions, just use get_weather\n\nAlways use tools when appropriate rather than making up information."

/-- JavaScript `array.slice(-20)`: the most recent twenty entries. -/
def jsLast20 (l : List HistEntry) : List HistEntry :=
  l.drop (l.length - 20)

/-- What one completed invocation returns and persists. -/
structure NetworkResult where
  response : String
  executed : List String
  calls : List (List Msg)
  messages : List Msg
  persisted : List HistEntry
deriving DecidableEq, Repr

/-- History persistence at the end of the handler: push the user and
assistant entries, persist the last twenty. -/
def persistHistory (history : List HistEntry) (message response : String) :
    List HistEntry :=
  jsLast20 (history ++ [{ role := "user", content := message },
                        { role := "assistant", content := response }])

/-- Packaging of a finished loop state into the invocation result. -/
def finishRun (history : List HistEntry) (message : String) (acc : RunAcc) :
    NetworkResult :=
  { response := acc.response, executed := acc.executed, calls := acc.calls,
    messages := acc.messages,
    persisted := persistHistory history message acc.response }

/-- The network agent handler: builds the initial message list from the
system prompt, the stored history and the user message, makes the first
model call and runs the tool loop, then persists the capped history.
`resps` is the sequence of assistant messages the chat-completion
client returns on successive calls. -/
def runNetwork (exec : String → ToolArgs → Except String String)
    (argParse : String → Except String ToolArgs)
    (resps : List AssistantMsg) (history : List HistEntry)
    (message : String) : Except String NetworkResult :=
  let initMsgs : List Msg :=
    { role := "system", content := some networkSystemPrompt } ::
    history.map (fun h => { role := h.role, content := some h.content }) ++
    [{ role := "user", content := some message }]
  match resps with
  | [] =>
    .ok (finishRun history message
      { calls := [initMsgs], messages := initMsgs, response := "",
        executed := [] })
  | r :: rs =>
    (runLoop exec argParse r rs initMsgs (jsOrString r.content "") []
      [initMsgs]).map (finishRun history message)

/-- The assistant turns actually consumed by one invocation: every turn
up to and including the first one with no tool calls. -/
def consumedTurns : List AssistantMsg → List AssistantMsg
  | [] => []
  | r :: rs => if r.tool_calls.isEmpty then [r] else r :: consumedTurns rs

/-- An optional string when it is present and non-empty. -/
def toNonEmpty (c : Option String) : Option String :=
  match c with
  | none => none
  | some s => if s = "" then none else some s

/-- The text content of a turn when it is non-empty. -/
def nonEmptyContent (am : AssistantMsg) : Option String :=
  toNonEmpty am.content

/-- Modelled from the spec: the last non-empty assistant text across a
sequence of turns, or the empty string when no turn produced one. -/
def lastNonEmptyText (turns : List AssistantMsg) : String :=
  (turns.filterMap nonEmptyContent).getLastD ""

/-! ## Except monad reduction lemmas -/

@[simp] theorem okBind {ε α β : Type} (a : α) (f : α → Except ε β) :
    (Except.ok a >>= f : Except ε β) = f a := rfl

@[simp] theorem errBind {ε α β : Type} (e : ε) (f : α → Except ε β) :
    (Except.error e >>= f : Except ε β) = Except.error e := rfl

@[simp] theorem pureIsOk {ε α : Type} (a : α) :
    (pure a : Except ε α) = Except.ok a := rfl

@[simp] theorem okMap {ε α β : Type} (f : α → β) (a : α) :
    (Except.ok a : Except ε α).map f = Except.ok (f a) := rfl

@[simp] theorem errMap {ε α β : Type} (f : α → β) (e : ε) :
    (Except.error e : Except ε α).map f = Except.error e := rfl

/-! ## Routing loop lemmas -/

theorem jsOrString_eq_getD (c : Option String) (d : String) :
    jsOrString c d = (toNonEmpty c).getD d := by
  cases c with
  | none => rfl
  | some s => by_cases hs : s = "" <;> simp [jsOrString, toNonEmpty, hs]

theorem foldl_jsOrString (l : List (Option String)) :
    ∀ d, l.foldl (fun a c => jsOrString c a) d =
      (l.filterMap toNonEmpty).getLastD d := by
  induction l with
  | nil => intro d; rfl
  | cons c l ih =>
    intro d
    rw [List.foldl_cons, ih]
    cases hc : toNonEmpty c with
    | none =>
      rw [List.filterMap_cons_none hc, jsOrString_eq_getD, hc]
      rfl
    | some s =>
      rw [List.filterMap_cons_some hc, jsOrString_eq_getD, hc,
        List.getLastD_cons]
      rfl

theorem consumedTurns_cons (r : AssistantMsg) (rs : List AssistantMsg) :
    consumedTurns (r :: rs) =
      r :: (if r.tool_calls.isEmpty then [] else consumedTurns rs) := by
  by_cases h : r.tool_calls.isEmpty <;> simp [consumedTurns, h]

/-- The response accumulator of the loop folds the contents of the
turns consumed after the current one over the current response. -/
theorem runLoop_ok_response (exec : String → ToolArgs → Except String String)
    (argParse : String → Except String ToolArgs) :
    ∀ (rest : List AssistantMsg) (am : AssistantMsg) (msgs : List Msg)
      (resp : String) (ex : List String) (calls : List (List Msg))
      (acc : RunAcc),
      runLoop exec argParse am rest msgs resp ex calls = .ok acc →
      acc.response =
        ((consumedTurns (am :: rest)).tail.map AssistantMsg.content).foldl
          (fun a c => jsOrString c a) resp := by
  intro rest
  induction rest with
  | nil =>
    intro am msgs resp ex calls acc h
    rw [runLoop] at h
    cases he : am.tool_calls.isEmpty with
    | true =>
      rw [he, if_pos rfl] at h
      cases h
      simp [consumedTurns_cons, he, consumedTurns]
    | false =>
      rw [he] at h
      rw [if_neg (by simp)] at h
      cases hb : processBatch exec argParse am.tool_calls with
      | error e =>
        rw [hb] at h
        exact absurd h (by simp)
      | ok p =>
        obtain ⟨tr, ns⟩ := p
        rw [hb] at h
        simp only [okBind] at h
        cases h
        simp [consumedTurns_cons, he, consumedTurns]
  | cons r rs ih =>
    intro am msgs resp ex calls acc h
    rw [runLoop] at h
    cases he : am.tool_calls.isEmpty with
    | true =>
      rw [he, if_pos rfl] at h
      cases h
      simp [consumedTurns_cons, he]
    | false =>
      rw [he] at h
      rw [if_neg (by simp)] at h
      cases hb : processBatch exec argParse am.tool_calls with
      | error e =>
        rw [hb] at h
        exact absurd h (by simp)
      | ok p =>
        obtain ⟨tr, ns⟩ := p
        rw [hb] at h
        simp only [okBind] at h
        have hrec : runLoop exec argParse r rs
            (msgs ++ [assistantEcho am] ++ tr) (jsOrString r.content resp)
            (ex ++ ns)
            (calls ++ [msgs ++ [assistantEcho am] ++ tr]) = .ok acc := h
        rw [ih r _ _ _ _ _ hrec]
        simp only [consumedTurns_cons am, he, Bool.false_eq_true, if_false,
          List.tail_cons, consumedTurns_cons r]
        cases hre : r.tool_calls.isEmpty <;>
          simp [List.map_cons, List.foldl_cons]

/-- Characterisation of a successful batch: the collected tool-role
messages correspond one-to-one, in order, to the function-type tool
calls, carrying their ids, and the executed names are their names. -/
theorem processBatch_ok_spec (exec : String → ToolArgs → Except String String)
    (argParse : String → Except String ToolArgs) :
    ∀ (tcs : List ToolCall) (ms : List Msg) (ns : List String),
      processBatch exec argParse tcs = .ok (ms, ns) →
      ms.map Msg.role =
        (tcs.filter (fun c => c.type == "function")).map (fun _ => "tool") ∧
      ms.map Msg.tool_call_id =
        (tcs.filter (fun c => c.type == "function")).map (fun c => some c.id) ∧
      ns = (tcs.filter (fun c => c.type == "function")).map ToolCall.name := by
  intro tcs
  induction tcs with
  | nil =>
    intro ms ns h
    simp only [processBatch, Except.ok.injEq, Prod.mk.injEq] at h
    obtain ⟨h1, h2⟩ := h
    subst h1
    subst h2
    simp
  | cons c cs ih =>
    intro ms ns h
    simp only [processBatch] at h
    by_cases hc : c.type = "function"
    · rw [if_neg (by simp [hc])] at h
      cases hap : argParse c.arguments with
      | error e => rw [hap] at h; exact absurd h (by simp)
      | ok args =>
        rw [hap] at h
        simp only [okBind] at h
        cases hex : exec c.name args with
        | error e => rw [hex] at h; exact absurd h (by simp)
        | ok result =>
          rw [hex] at h
          simp only [okBind] at h
          cases hrec : processBatch exec argParse cs with
          | error e => rw [hrec] at h; exact absurd h (by simp)
          | ok p =>
            obtain ⟨ms2, ns2⟩ := p
            rw [hrec] at h
            simp only [okBind] at h
            cases h
            obtain ⟨h1, h2, h3⟩ := ih ms2 ns2 hrec
            simp [List.filter_cons, hc, mkToolMsg, h1, h2, h3]
    · rw [if_pos (by simp [hc])] at h
      obtain ⟨h1, h2, h3⟩ := ih ms ns h
      simp [List.filter_cons, hc, h1, h2, h3]

/-- One iteration of the while body: with a non-empty batch that
processes successfully, the loop continues with the assistant echo and
all the tool-result messages appended to the message list, which is
exactly the list recorded for (and passed to) the next model call. -/
theorem runLoop_step (exec : String → ToolArgs → Except String String)
    (argParse : String → Except String ToolArgs) (am r : AssistantMsg)
    (rs : List AssistantMsg) (msgs : List Msg) (resp : String)
    (ex : List String) (calls : List (List Msg)) (toolResults : List Msg)
    (names : List String) (hne : am.tool_calls ≠ [])
    (hb : processBatch exec argParse am.tool_calls = .ok (toolResults, names)) :
    runLoop exec argParse am (r :: rs) msgs resp ex calls =
      runLoop exec argParse r rs (msgs ++ [assistantEcho am] ++ toolResults)
        (jsOrString r.content resp) (ex ++ names)
        (calls ++ [msgs ++ [assistantEcho am] ++ toolResults]) := by
  rw [runLoop]
  rw [if_neg (by simp [List.isEmpty_iff, hne])]
  rw [hb]
  rfl

/-- A successful invocation result is the packaged loop accumulator, so
its persisted history has the persistHistory shape. -/
theorem finishRun_map_persisted (history : List HistEntry) (message : String)
    (x : Except String RunAcc) (res : NetworkResult)
    (h : x.map (finishRun history message) = .ok res) :
    res.persisted = persistHistory history message res.response := by
  cases x with
  | error e => simp [Except.map] at h
  | ok acc =>
    simp only [okMap, Except.ok.injEq] at h
    rw [← h]
    rfl

/-- A successful invocation result keeps the loop accumulator response. -/
theorem finishRun_map_response (history : List HistEntry) (message : String)
    (x : Except String RunAcc) (res : NetworkResult)
    (h : x.map (finishRun history message) = .ok res) :
    ∃ acc, x = .ok acc ∧ res.response = acc.response := by
  cases x with
  | error e => simp [Except.map] at h
  | ok acc =>
    simp only [okMap, Except.ok.injEq] at h
    exact ⟨acc, rfl, by rw [← h]; rfl⟩


/-! ## Day planner agent (structured-output example)

The JSON-mode consumer: `JSON.parse` is injected as a partial decoding
function into JavaScript-like values (`none` models a parse throw,
caught by the handler), and the subsequent property accesses and the
`reduce` over `parsedPlan.plan` follow JavaScript semantics: property
access on null/undefined throws, `.reduce` on a non-array throws,
`.length` of undefined in an addition would make the sum NaN (modelled
as `none`). -/

/-- JavaScript values as produced by JSON.parse (plus undefined). -/
inductive JsValue where
  | undefined : JsValue
  | null : JsValue
  | bool : Bool → JsValue
  | num : Int → JsValue
  | str : String → JsValue
  | arr : List JsValue → JsValue
  | obj : List (String × JsValue) → JsValue

/-- JavaScript property access `v.k`: throws on null/undefined, looks up
object fields, and yields undefined elsewhere (no plan/summary/activities
key exists on primitives or arrays). -/
def jsGet (v : JsValue) (k : String) : Except String JsValue :=
  match v with
  | .obj fields => .ok (((fields.find? (fun kv => kv.1 == k)).map Prod.snd).getD .undefined)
  | .undefined => .error "TypeError"
  | .null => .error "TypeError"
  | _ => .ok .undefined

/-- JavaScript `v.length` as used in the activity count: arrays and
strings give a number, null/undefined throw, any other value gives
undefined, which poisons the running sum to NaN (`none`). -/
def jsLengthVal (v : JsValue) : Except String (Option Nat) :=
  match v with
  | .arr elems => .ok (some elems.length)
  | .str s => .ok (some s.length)
  | .undefined => .error "TypeError"
  | .null => .error "TypeError"
  | .obj fields =>
    .ok (match (fields.find? (fun kv => kv.1 == "length")).map Prod.snd with
      | some (.num n) => if 0 ≤ n then some n.toNat else none
      | _ => none)
  | _ => .ok none

/-- Addition of a possibly-NaN running sum and length. -/
def jsAddLen (sum len : Option Nat) : Option Nat :=
  match sum, len with
  | some a, some b => some (a + b)
  | _, _ => none

/-- The handler line `parsedPlan.plan.reduce((sum, block) => sum +
block.activities.length, 0)`: throws when `plan` is missing (undefined)
or not an array. -/
def totalActivitiesOf (parsedPlan : JsValue) : Except String (Option Nat) := do
  let plan ← jsGet parsedPlan "plan"
  match plan with
  | .arr blocks =>
    blocks.foldlM (fun sum block => do
      let acts ← jsGet block "activities"
      let len ← jsLengthVal acts
      pure (jsAddLen sum len)) (some 0)
  | _ => .error "TypeError"

/-- The plan array of the catch-branch placeholder: one Morning block
with one Plan-your-day activity. -/
def placeholderPlanArr : JsValue :=
  .arr [.obj [("name", .str "Morning"),
          ("activities", .arr [.obj [("name", .str "Plan your day"),
            ("startTime", .str "09:00"), ("endTime", .str "09:30"),
            ("description", .str "Take time to organize your schedule"),
            ("priority", .str "high")]])]]

/-- The catch-branch placeholder plan of the day planner handler. -/
def placeholderParsedPlan : JsValue :=
  .obj [("plan", placeholderPlanArr),
        ("summary", .str "A simple day plan to get started.")]

/-- Fields of the day planner output that depend on the parsed plan. -/
structure DayPlanOut where
  plan : JsValue
  summary : JsValue
  totalActivities : Option Nat

/-- The day planner handler after the model call: take the response
content (defaulting to the two-character object literal when null),
JSON-parse it falling back to the placeholder plan on a parse throw,
then compute the activity count and the returned fields. -/
def dayPlannerCompute (parse : String → Option JsValue)
    (modelContent : Option String) : Except String DayPlanOut := do
  let content := modelContent.getD "\x7b\x7d"
  let parsedPlan : JsValue :=
    match parse content with
    | some v => v
    | none => placeholderParsedPlan
  let totalActivities ← totalActivitiesOf parsedPlan
  let plan ← jsGet parsedPlan "plan"
  let summary ← jsGet parsedPlan "summary"
  pure { plan := plan, summary := summary, totalActivities := totalActivities }

/-! ## Weather agent (using-tools example)

Its `getWeather` wraps geocoding and the weather fetch in a try/catch
and encodes every failure as a result string. The two fetch+json round
trips are injected as functions returning `Except` (an error models a
thrown exception or rejected promise anywhere inside the try block). -/

/-- First geocoding hit (fields used), already extracted from the
response JSON. -/
structure Coords where
  lat : String
  lon : String
  name : String
deriving DecidableEq, Repr

/-- Geocoding response: HTTP ok flag and the optional first result. -/
structure GeoResp where
  ok : Bool
  result : Option Coords
deriving DecidableEq, Repr

/-- Current-weather fields used by the formatter; the numeric JSON
values are modelled by their rendered strings. -/
structure CurrentWeather where
  temperature_2m : String
  weather_code : Int
  wind_speed_10m : String
deriving DecidableEq, Repr

/-- Weather response: HTTP ok flag and the current block. -/
structure WResp where
  ok : Bool
  current : CurrentWeather
deriving DecidableEq, Repr

/-- Weather-code description table of the using-tools weather agent. -/
def weatherDescriptions : List (Int × String) :=
  [(0, "Clear sky"), (1, "Mainly clear"), (2, "Partly cloudy"),
   (3, "Overcast"), (45, "Foggy"), (48, "Depositing rime fog"),
   (51, "Light drizzle"), (53, "Moderate drizzle"), (55, "Dense drizzle"),
   (61, "Slight rain"), (63, "Moderate rain"), (65, "Heavy rain"),
   (71, "Slight snow"), (73, "Moderate snow"), (75, "Heavy snow"),
   (80, "Slight rain showers"), (81, "Moderate rain showers"),
   (82, "Violent rain showers"), (95, "Thunderstorm")]

/-- Forecast URL built from the geocoded coordinates. -/
def forecastUrl (c : Coords) : String :=
  "https://api.open-meteo.com/v1/forecast?latitude=" ++ c.lat ++
  "&longitude=" ++ c.lon ++
  "&current=temperature_2m,weather_code,wind_speed_10m&temperature_unit=celsius"

/-- Using-tools `getCoordinates`: null on a non-ok response or a missing
first result; fetch/json failures propagate to the caller. -/
def getCoordinates (geoFetch : String → Except String GeoResp)
    (location : String) : Except String (Option Coords) := do
  let response ← geoFetch location
  if !response.ok then pure none
  else pure response.result

/-- Using-tools `getWeather`: total in the result string; the try/catch
maps any propagated error to the unable-to-fetch message. -/
def usingToolsGetWeather (geoFetch : String → Except String GeoResp)
    (weatherFetch : String → Except String WResp) (location : String) :
    String :=
  let body : Except String String := do
    let coords? ← getCoordinates geoFetch location
    match coords? with
    | none => pure ("Could not find location: " ++ location)
    | some coords => do
      let response ← weatherFetch (forecastUrl coords)
      if !response.ok then
        pure ("Weather service error for " ++ location)
      else
        let current := response.current
        let description :=
          (weatherDescriptions.lookup current.weather_code).getD
            "Unknown conditions"
        pure (coords.name ++ ": " ++ description ++ ", " ++
          current.temperature_2m ++ "°C, Wind: " ++
          current.wind_speed_10m ++ " km/h")
  match body with
  | .ok s => s
  | .error _ => "Unable to fetch weather for " ++ location

/-! ## Concrete stub collaborators used by witnesses -/

/-- A research stub echoing its topic with two fixed insights. -/
def researchStub : String → Except String ResearchRes :=
  fun topic => .ok { topic := topic, insights := ["i1", "i2"] }

/-- A writing stub that joins the given insights into the content. -/
def writingStub : WritingArgs → Except String WritingRes :=
  fun a => .ok { content := String.intercalate " " a.insights,
                 wordCount := a.insights.length }

/-- Dependencies with an always-failing fetch. -/
def depsFailingFetch : Deps :=
  { fetchText := fun _ => .error "network failure", encode := id,
    research := researchStub, writing := writingStub }

/-! ## Claims -/

/-- C7 counterexample: the writing agent maps an empty model content to
wordCount 1, not 0, because the JavaScript whitespace split of the
empty string has one (empty) fragment. -/
theorem writing_wordCount_empty_counterexample :
    (writingHandler (some "") "t").wordCount = 1 ∧
    ¬ (writingHandler (some "") "t").wordCount = 0 := by
  decide

/-- C7 (amended): the writing agent wordCount equals one plus the
number of maximal whitespace runs in the returned content (so k words
with single separators and no leading or trailing whitespace count k,
but empty content counts 1 and boundary whitespace adds empty
fragments); null content is first defaulted to the empty string. -/
theorem writing_wordCount_eq_one_plus_wsRuns
    (modelContent : Option String) (topic : String) :
    (writingHandler modelContent topic).wordCount =
      1 + wsRuns (modelContent.getD "").data := by
  simp [writingHandler, wordCountOf, jsFields_length]

/-- C5: dispatching any tool name other than the four registered ones
returns the literal unknown-tool string as an ordinary (non-error)
result. -/
theorem executeTool_unknown_tool (deps : Deps) (toolName : String)
    (args : ToolArgs)
    (h1 : toolName ≠ "get_weather") (h2 : toolName ≠ "research_topic")
    (h3 : toolName ≠ "write_content") (h4 : toolName ≠ "city_research") :
    executeTool deps toolName args = .ok ("Unknown tool: " ++ toolName) := by
  simp [executeTool, h1, h2, h3, h4, pure, Except.pure]

/-- C5 witness: a concrete unknown tool name produces the literal
string without an error. -/
theorem executeTool_unknown_tool_witness :
    executeTool depsFailingFetch "frobnicate" {} =
      .ok "Unknown tool: frobnicate" :=
  executeTool_unknown_tool depsFailingFetch "frobnicate" {}
    (by decide) (by decide) (by decide) (by decide)

/-- C6: the city workflow researches the city name plus the fixed
descriptor, hands exactly the returned insights to the writing stage
with style report, and returns those insights and the writing outputs. -/
theorem cityWorkflow_composition
    (research : String → Except String ResearchRes)
    (writing : WritingArgs → Except String WritingRes) (city : String)
    {r : ResearchRes} {w : WritingRes}
    (hr : research (city ++ citySuffix) = .ok r)
    (hw : writing { topic := city, insights := r.insights,
                    style := "report" } = .ok w) :
    cityWorkflow research writing city =
      .ok { city := city, insights := r.insights,
            reportContent := w.content, reportWordCount := w.wordCount } := by
  simp [cityWorkflow, hr, hw]

/-- C6 witness: with an echoing research stub and a joining writing
stub, the workflow output is exactly the composed record. -/
theorem cityWorkflow_composition_witness :
    cityWorkflow researchStub writingStub "Paris" =
      .ok { city := "Paris", insights := ["i1", "i2"],
            reportContent := "i1 i2", reportWordCount := 2 } :=
  cityWorkflow_composition researchStub writingStub "Paris" rfl rfl

/-- C4 counterexample: when the underlying fetch fails, the network
agent get_weather tool does not return a string result; the error
propagates out of the tool dispatch. -/
theorem network_get_weather_propagates_counterexample :
    executeTool depsFailingFetch "get_weather" { location := some "Paris" } =
      .error "network failure" := rfl

/-- C4 (amended): the network agent get_weather tool returns the
formatted weather string exactly when the underlying fetch succeeds;
when the fetch throws, the exception propagates out of the tool (this
tools-module getWeather has no try/catch, unlike the using-tools
weather agent). -/
theorem network_get_weather_ok_or_propagates
    (fetchText : String → Except String String) (encode : String → String)
    (research : String → Except String ResearchRes)
    (writing : WritingArgs → Except String WritingRes) (loc : String) :
    (∀ e, fetchText (wttrUrl encode loc) = .error e →
      executeTool { fetchText := fetchText, encode := encode,
                    research := research, writing := writing }
        "get_weather" { location := some loc } = .error e) ∧
    (∀ body, fetchText (wttrUrl encode loc) = .ok body →
      executeTool { fetchText := fetchText, encode := encode,
                    research := research, writing := writing }
        "get_weather" { location := some loc } =
        .ok ("Weather in " ++ loc ++ ": " ++ jsTrim body)) := by
  constructor
  · intro e h
    simp [executeTool, networkGetWeather, h]
  · intro body h
    simp [executeTool, networkGetWeather, h]

/-- C4 witness for the amended claim: a successful fetch yields the
formatted string, exercised at a concrete location and body. -/
theorem network_get_weather_ok_or_propagates_witness :
    executeTool { fetchText := fun _ => .ok "sunny", encode := id,
                  research := researchStub, writing := writingStub }
      "get_weather" { location := some "Paris" } =
      .ok "Weather in Paris: sunny" :=
  (network_get_weather_ok_or_propagates (fun _ => .ok "sunny") id
    researchStub writingStub "Paris").2 "sunny" rfl

/-- C8: whenever the model content fails to JSON-parse, the day planner
handler falls back to the placeholder plan (one Morning block with one
Plan-your-day activity, summary A simple day plan to get started, one
activity in total) instead of raising. -/
theorem dayPlanner_parse_failure_placeholder
    (parse : String → Option JsValue) (modelContent : Option String)
    (h : parse (modelContent.getD "\x7b\x7d") = none) :
    dayPlannerCompute parse modelContent =
      .ok { plan := placeholderPlanArr,
            summary := .str "A simple day plan to get started.",
            totalActivities := some 1 } := by
  unfold dayPlannerCompute
  simp only [h]
  rfl

/-- C8 witness: a concrete non-JSON model content produces the
placeholder result. -/
theorem dayPlanner_parse_failure_placeholder_witness :
    dayPlannerCompute (fun _ => none) (some "not json") =
      .ok { plan := placeholderPlanArr,
            summary := .str "A simple day plan to get started.",
            totalActivities := some 1 } :=
  dayPlanner_parse_failure_placeholder (fun _ => none) (some "not json") rfl

/-- Decoder stub recognising only the two-character empty-object
literal, the default content when the model returns null. -/
def parseEmptyObj : String → Option JsValue :=
  fun s => if s = "\x7b\x7d" then some (.obj []) else none

/-- C9: content that parses as valid JSON but lacks a plan array (the
empty object, which is also the default for null model content) makes
the handler raise a TypeError while computing totalActivities instead
of using the placeholder plan. -/
theorem dayPlanner_missing_plan_raises :
    parseEmptyObj "\x7b\x7d" = some (.obj []) ∧
    dayPlannerCompute parseEmptyObj none = .error "TypeError" :=
  ⟨rfl, rfl⟩

/-- C10: the using-tools weather agent getWeather is total on its error
paths: a geocoding miss (non-ok response or no result) yields the
could-not-find string, a non-ok weather response yields the
service-error string, and a thrown exception in either fetch is caught
and yields the unable-to-fetch string. -/
theorem usingTools_getWeather_error_paths
    (geoFetch : String → Except String GeoResp)
    (weatherFetch : String → Except String WResp) (location : String) :
    (∀ r, geoFetch location = .ok r → (r.ok = false ∨ r.result = none) →
      usingToolsGetWeather geoFetch weatherFetch location =
        "Could not find location: " ++ location) ∧
    (∀ r c w, geoFetch location = .ok r → r.ok = true → r.result = some c →
      weatherFetch (forecastUrl c) = .ok w → w.ok = false →
      usingToolsGetWeather geoFetch weatherFetch location =
        "Weather service error for " ++ location) ∧
    (∀ e, geoFetch location = .error e →
      usingToolsGetWeather geoFetch weatherFetch location =
        "Unable to fetch weather for " ++ location) ∧
    (∀ r c e, geoFetch location = .ok r → r.ok = true → r.result = some c →
      weatherFetch (forecastUrl c) = .error e →
      usingToolsGetWeather geoFetch weatherFetch location =
        "Unable to fetch weather for " ++ location) := by
  refine ⟨?_, ?_, ?_, ?_⟩
  · rintro r hg (hok | hres)
    · simp [usingToolsGetWeather, getCoordinates, hg, hok]
    · rcases hok : r.ok
      · simp [usingToolsGetWeather, getCoordinates, hg, hok]
      · simp [usingToolsGetWeather, getCoordinates, hg, hok, hres]
  · intro r c w hg hok hres hw hwok
    simp [usingToolsGetWeather, getCoordinates, hg, hok, hres, hw, hwok]
  · intro e hg
    simp [usingToolsGetWeather, getCoordinates, hg]
  · intro r c e hg hok hres hw
    simp [usingToolsGetWeather, getCoordinates, hg, hok, hres, hw]

/-- A tool executor stub that always succeeds with a fixed result. -/
def execStub : String → ToolArgs → Except String String :=
  fun _ _ => .ok "result"

/-- An argument decoder stub that always succeeds with empty fields. -/
def argParseStub : String → Except String ToolArgs :=
  fun _ => .ok {}

/-- A model run whose first turn requests one non-function (custom)
tool call and whose second turn is plain text. -/
def customCallResps : List AssistantMsg :=
  [{ content := some "hi",
     tool_calls := [{ id := "id1", type := "custom", name := "foo",
                      arguments := "\x7b\x7d" }] },
   { content := some "done", tool_calls := [] }]

/-- C1 counterexample: a batch consisting of one non-function tool-call
request yields zero appended tool-role messages (in every message list
ever passed to the model) and no executed tool, so the loop does not
append exactly one tool-role message per tool-call request. -/
theorem network_tool_message_nonfunction_counterexample :
    customCallResps.map (fun r => r.tool_calls.length) = [1, 0] ∧
    (runNetwork execStub argParseStub customCallResps [] "m").map
      (fun res =>
        (res.calls.map
          (fun ms => (ms.filter (fun m => m.role == "tool")).length),
         res.executed)) = .ok ([0, 0], []) :=
  ⟨rfl, rfl⟩

/-- C1 (amended): when an assistant turn carries tool calls and its
batch processes without a thrown error, the loop appends exactly one
tool-role message per function-type tool-call request (non-function
calls are skipped without a result message), in request order, each
carrying the originating tool_call_id, and all of them (after the
assistant echo) extend the message list recorded for and passed to the
next model call. -/
theorem network_tool_messages_per_function_call
    (exec : String → ToolArgs → Except String String)
    (argParse : String → Except String ToolArgs) (am r : AssistantMsg)
    (rs : List AssistantMsg) (msgs : List Msg) (resp : String)
    (ex : List String) (calls : List (List Msg)) (toolResults : List Msg)
    (names : List String) (hne : am.tool_calls ≠ [])
    (hb : processBatch exec argParse am.tool_calls = .ok (toolResults, names)) :
    toolResults.map Msg.role = (fnCalls am).map (fun _ => "tool") ∧
    toolResults.map Msg.tool_call_id = (fnCalls am).map (fun c => some c.id) ∧
    names = (fnCalls am).map ToolCall.name ∧
    runLoop exec argParse am (r :: rs) msgs resp ex calls =
      runLoop exec argParse r rs (msgs ++ [assistantEcho am] ++ toolResults)
        (jsOrString r.content resp) (ex ++ names)
        (calls ++ [msgs ++ [assistantEcho am] ++ toolResults]) := by
  obtain ⟨h1, h2, h3⟩ :=
    processBatch_ok_spec exec argParse am.tool_calls toolResults names hb
  exact ⟨h1, h2, h3,
    runLoop_step exec argParse am r rs msgs resp ex calls toolResults names
      hne hb⟩

/-- A turn with a single function tool call. -/
def fnCallAm : AssistantMsg :=
  { content := some "hi",
    tool_calls := [{ id := "id1", type := "function", name := "lookup",
                     arguments := "\x7b\x7d" }] }

/-- A plain final turn with no tool calls. -/
def doneAm : AssistantMsg := { content := some "done", tool_calls := [] }

/-- C1 witness: a concrete one-call function batch produces exactly one
tool message with the matching id, appended before the next call. -/
theorem network_tool_messages_per_function_call_witness :
    [mkToolMsg "id1" "result"].map Msg.role =
      (fnCalls fnCallAm).map (fun _ => "tool") ∧
    [mkToolMsg "id1" "result"].map Msg.tool_call_id =
      (fnCalls fnCallAm).map (fun c => some c.id) ∧
    ["lookup"] = (fnCalls fnCallAm).map ToolCall.name ∧
    runLoop execStub argParseStub fnCallAm [doneAm] [] "" [] [] =
      runLoop execStub argParseStub doneAm []
        ([] ++ [assistantEcho fnCallAm] ++ [mkToolMsg "id1" "result"])
        (jsOrString doneAm.content "") ([] ++ ["lookup"])
        ([] ++ [[] ++ [assistantEcho fnCallAm] ++ [mkToolMsg "id1" "result"]]) :=
  network_tool_messages_per_function_call execStub argParseStub fnCallAm
    doneAm [] [] "" [] [] [mkToolMsg "id1" "result"] ["lookup"]
    (by decide) rfl

/-- C2: a completed invocation persists exactly the prior history with
the user message and the final response appended and truncated to the
most recent twenty entries: the persisted history never exceeds twenty
entries and is a suffix (most recent entries, original order) of the
appended history. -/
theorem network_history_persist
    (exec : String → ToolArgs → Except String String)
    (argParse : String → Except String ToolArgs)
    (resps : List AssistantMsg) (history : List HistEntry)
    (message : String) (res : NetworkResult)
    (h : runNetwork exec argParse resps history message = .ok res) :
    res.persisted = jsLast20 (history ++
      [{ role := "user", content := message },
       { role := "assistant", content := res.response }]) ∧
    res.persisted.length = min (history.length + 2) 20 ∧
    res.persisted <:+ (history ++
      [{ role := "user", content := message },
       { role := "assistant", content := res.response }]) := by
  have hp : res.persisted = persistHistory history message res.response := by
    cases resps with
    | nil =>
      simp only [runNetwork, Except.ok.injEq] at h
      rw [← h]
      rfl
    | cons r rs =>
      simp only [runNetwork] at h
      exact finishRun_map_persisted history message _ res h
  refine ⟨hp, ?_, ?_⟩
  · rw [hp]
    simp only [persistHistory, jsLast20, List.length_drop,
      List.length_append, List.length_cons, List.length_nil]
    omega
  · rw [hp]
    exact List.drop_suffix _ _

/-- A minimal completed run: one plain response, no tool calls. -/
def plainResps : List AssistantMsg :=
  [{ content := some "hello", tool_calls := [] }]

/-- A one-entry prior history. -/
def plainHist : List HistEntry := [{ role := "user", content := "hi" }]

/-- The initial message list of the minimal run. -/
def plainInit : List Msg :=
  [{ role := "system", content := some networkSystemPrompt },
   { role := "user", content := some "hi" },
   { role := "user", content := some "m" }]

/-- The invocation result of the minimal run. -/
def plainRes : NetworkResult :=
  { response := "hello", executed := [], calls := [plainInit],
    messages := plainInit,
    persisted := [{ role := "user", content := "hi" },
                  { role := "user", content := "m" },
                  { role := "assistant", content := "hello" }] }

/-- C2 witness: the minimal run persists the appended, capped history. -/
theorem network_history_persist_witness :
    plainRes.persisted = jsLast20 (plainHist ++
      [{ role := "user", content := "m" },
       { role := "assistant", content := plainRes.response }]) ∧
    plainRes.persisted.length = min (plainHist.length + 2) 20 ∧
    plainRes.persisted <:+ (plainHist ++
      [{ role := "user", content := "m" },
       { role := "assistant", content := plainRes.response }]) :=
  network_history_persist execStub argParseStub plainResps plainHist "m"
    plainRes rfl

/-- C3: the final response of a completed invocation is the last
non-empty assistant content over the turns the invocation consumed, or
the empty string when no consumed turn has non-empty content (an empty
or null content never overwrites the previously recorded text). -/
theorem network_response_last_nonempty
    (exec : String → ToolArgs → Except String String)
    (argParse : String → Except String ToolArgs)
    (resps : List AssistantMsg) (history : List HistEntry)
    (message : String) (res : NetworkResult)
    (h : runNetwork exec argParse resps history message = .ok res) :
    res.response = lastNonEmptyText (consumedTurns resps) := by
  cases resps with
  | nil =>
    simp only [runNetwork, Except.ok.injEq] at h
    rw [← h]
    rfl
  | cons r rs =>
    simp only [runNetwork] at h
    obtain ⟨acc, hacc, hresp⟩ := finishRun_map_response history message _ res h
    rw [hresp, runLoop_ok_response exec argParse rs r _ _ _ _ acc hacc]
    rw [consumedTurns_cons r]
    simp only [List.tail_cons, lastNonEmptyText]
    generalize (if r.tool_calls.isEmpty then []
      else consumedTurns rs) = t
    have hstep :
        ((r :: t).map AssistantMsg.content).foldl
            (fun a c => jsOrString c a) "" =
          (t.map AssistantMsg.content).foldl (fun a c => jsOrString c a)
            (jsOrString r.content "") := by
      simp
    rw [← hstep, foldl_jsOrString, List.filterMap_map]
    rfl

/-- C3 witness: the minimal run returns its only turn's content. -/
theorem network_response_last_nonempty_witness :
    plainRes.response = lastNonEmptyText (consumedTurns plainResps) :=
  network_response_last_nonempty execStub argParseStub plainResps plainHist
    "m" plainRes rfl

/-- C10 witness: a geocoding miss at a concrete location produces the
could-not-find string. -/
theorem usingTools_getWeather_error_paths_witness :
    usingToolsGetWeather (fun _ => .ok { ok := false, result := none })
      (fun _ => .error "boom") "Atlantis" =
      "Could not find location: Atlantis" :=
  (usingTools_getWeather_error_paths
    (fun _ => .ok { ok := false, result := none })
    (fun _ => .error "boom") "Atlantis").1
    { ok := false, result := none } rfl (Or.inl rfl)

end Examples
